import Mathlib

/-!
Shallow embedding of the Skia `SkPictureRecord` display-list recorder
(src/unnamed/part_000) and proofs of the specification claims about it.

The command stream is modelled as a list of 32-bit words (every command in the
recorder is 4-byte aligned and a multiple of 4 bytes long); byte offsets are
always multiples of 4 and map to word indices by division.  Negative stack
values (the source stores them in `int32_t`) are modelled as `Int`, and a word
holding a possibly-negative value is stored as its two's-complement `Nat`
image (`u32`) and read back signed with `s32`.
-/

/-! ## Opcode ordinals

The `DrawType` enum is declared in a header that is not part of src/, but its
ordinal order is pinned by the `gPaintOffsets` table comments in
`getPaintOffset` (src/unnamed/part_000 lines 67-108), which list one entry per
opcode in enum order. -/

def UNUSED : Nat := 0
def CLIP_PATH : Nat := 1
def CLIP_REGION : Nat := 2
def CLIP_RECT : Nat := 3
def CLIP_RRECT : Nat := 4
def CONCAT : Nat := 5
def DRAW_BITMAP : Nat := 6
def DRAW_BITMAP_MATRIX : Nat := 7
def DRAW_BITMAP_NINE : Nat := 8
def DRAW_BITMAP_RECT_TO_RECT : Nat := 9
def DRAW_CLEAR : Nat := 10
def DRAW_DATA : Nat := 11
def DRAW_OVAL : Nat := 12
def DRAW_PAINT : Nat := 13
def DRAW_PATH : Nat := 14
def DRAW_PICTURE : Nat := 15
def DRAW_POINTS : Nat := 16
def DRAW_POS_TEXT : Nat := 17
def DRAW_POS_TEXT_TOP_BOTTOM : Nat := 18
def DRAW_POS_TEXT_H : Nat := 19
def DRAW_POS_TEXT_H_TOP_BOTTOM : Nat := 20
def DRAW_RECT : Nat := 21
def DRAW_RRECT : Nat := 22
def DRAW_SPRITE : Nat := 23
def DRAW_TEXT : Nat := 24
def DRAW_TEXT_ON_PATH : Nat := 25
def DRAW_TEXT_TOP_BOTTOM : Nat := 26
def DRAW_VERTICES : Nat := 27
def RESTORE : Nat := 28
def ROTATE : Nat := 29
def SAVE : Nat := 30
def SAVE_LAYER : Nat := 31
def SCALE : Nat := 32
def SET_MATRIX : Nat := 33
def SKEW : Nat := 34
def TRANSLATE : Nat := 35
def NOOP : Nat := 36

def MASK24 : Nat := 2 ^ 24 - 1

/-- Source `SkCanvas::kMatrixClip_SaveFlag` (= kMatrix | kClip = 0x01 | 0x02). -/
def kMatrixClipSaveFlag : Nat := 3

def kUInt32Size : Nat := 4

def kSaveSize : Nat := 2 * kUInt32Size

def kSaveLayerNoBoundsSize : Nat := 4 * kUInt32Size

/-- Source `4 * kUInt32Size + sizeof(SkRect)` with `sizeof(SkRect) = 16`. -/
def kSaveLayerWithBoundsSize : Nat := 4 * kUInt32Size + 16

/-! ## The writer (`SkWriter32`): an append-only 4-byte aligned buffer -/

structure SkWriter32 where
  words : List Nat
deriving DecidableEq

def bytesWritten (w : SkWriter32) : Nat := 4 * w.words.length

def read32At (w : SkWriter32) (off : Nat) : Nat := w.words.getD (off / 4) 0

def write32At (w : SkWriter32) (off v : Nat) : SkWriter32 := ⟨w.words.set (off / 4) v⟩

def appendWord (w : SkWriter32) (v : Nat) : SkWriter32 := ⟨w.words ++ [v]⟩

def rewindToOffset (w : SkWriter32) (off : Nat) : SkWriter32 := ⟨w.words.take (off / 4)⟩

/-- Two's-complement image of an `int32_t` value as the stored `uint32_t`. -/
def u32 (x : Int) : Nat := (x % (2 ^ 32 : Int)).toNat

/-- Signed reinterpretation of a stored 32-bit word (`uint32_t` → `int32_t`). -/
def s32 (v : Nat) : Int := if v < 2 ^ 31 then (v : Int) else (v : Int) - 2 ^ 32

/-! ## Opcode codec -/

/-- Source `peek_op_and_size` (src/unnamed/part_000 lines 207-217): split the header
word into the high 8 opcode bits and the low 24 size bits; a low-24 field equal
to `MASK_24` means the true size sits in the following word. -/
def peek_op_and_size (w : SkWriter32) (off : Nat) : Nat × Nat :=
  let pk := read32At w off
  let op := pk / 2 ^ 24
  let sz := pk % 2 ^ 24
  if sz = MASK24 then (op, read32At w (off + kUInt32Size)) else (op, sz)

/-- Modelled from the spec: the header-emission half of the codec
(`SkPictureRecord::addDraw`, declared in SkPictureRecord.h which is not under
src/).  "If `declared_size < 2²⁴−1` and `declared_size` fits in 24 bits, append
one word `(op << 24) | declared_size`.  Otherwise append
`(op << 24) | (2²⁴−1)` followed by a word containing `declared_size`." -/
def emitHeader (w : SkWriter32) (op size : Nat) : SkWriter32 :=
  if size < MASK24 then appendWord w (op * 2 ^ 24 + size)
  else appendWord (appendWord w (op * 2 ^ 24 + MASK24)) size

/-- Source `convert_command_to_noop` (src/unnamed/part_000 lines 340-343): keep the
low 24 bits of the header word and replace the opcode byte by `NOOP`. -/
def convert_command_to_noop (w : SkWriter32) (off : Nat) : SkWriter32 :=
  let command := read32At w off
  write32At w off (command % 2 ^ 24 + NOOP * 2 ^ 24)

/-! ## Paints and the paint dictionary -/

/-- An `SkPaint` as far as the recorder observes it: a 32-bit ARGB color and
presence bits for the eight effect slots tested by `is_simple`. -/
structure SkPaint where
  color : Nat
  pathEffect : Bool
  shader : Bool
  xfermode : Bool
  maskFilter : Bool
  colorFilter : Bool
  rasterizer : Bool
  looper : Bool
  imageFilter : Bool
deriving DecidableEq

/-- Source `is_simple` (src/unnamed/part_000 lines 224-234): no effect attached. -/
def is_simple (p : SkPaint) : Bool :=
  !(p.pathEffect || p.shader || p.xfermode || p.maskFilter ||
    p.colorFilter || p.rasterizer || p.looper || p.imageFilter)

def SkColorGetA (c : Nat) : Nat := (c / 2 ^ 24) % 2 ^ 8

def SkColorSetA (c a : Nat) : Nat := (c % 2 ^ 24) + a * 2 ^ 24

/-- Source `color | 0xFF000000` on a 32-bit color: force the alpha byte opaque. -/
def forceOpaqueColor (c : Nat) : Nat := c % 2 ^ 24 + 0xFF000000

/-- One-based position of the first occurrence of `p`, if any. -/
def findIndex1 : List SkPaint → SkPaint → Option Nat
  | [], _ => none
  | q :: rest, p => if q = p then some 1 else (findIndex1 rest p).map (· + 1)

/-- Source `SkPaintDictionary::findAndReturnFlat`: return the existing 1-based index
of a value-equal paint, else append and return the fresh index. -/
def findAndReturnFlat (d : List SkPaint) (p : SkPaint) : Nat × List SkPaint :=
  match findIndex1 d p with
  | some i => (i, d)
  | none => (d.length + 1, d ++ [p])

/-- Source `SkPaintDictionary::unflatten`: index 0 and out-of-range give NULL. -/
def unflatten (d : List SkPaint) (i : Nat) : Option SkPaint :=
  if i = 0 then none else d.get? (i - 1)

/-! ## Region ops and clip parameter packing -/

inductive RegionOp
  | difference
  | intersect
  | union
  | xor
  | reverseDifference
  | replace
deriving DecidableEq

def RegionOp.toNat : RegionOp → Nat
  | .difference => 0
  | .intersect => 1
  | .union => 2
  | .xor => 3
  | .reverseDifference => 4
  | .replace => 5

/-- Source `regionOpExpands` (src/unnamed/part_000 lines 687-701). -/
def regionOpExpands : RegionOp → Bool
  | .union => true
  | .xor => true
  | .reverseDifference => true
  | .replace => true
  | .intersect => false
  | .difference => false

/-- Modelled from the spec: `ClipParams_pack` (declared in SkPicturePlayback.h,
not under src/): "bit-packed representation; low bits: op ordinal; bit N: AA
flag". -/
def ClipParams_pack (op : RegionOp) (doAA : Bool) : Nat :=
  (if doAA then 2 ^ 4 else 0) + op.toNat

/-! ## Recorder state -/

/-- The mutable state of an `SkPictureRecord`: the writer, the restore-offset
stack (top at the head), the paint dictionary, the bitmap heap (bitmaps as
identity tokens), the picture-reference array plus the audit list of `ref()`
calls, `fFirstSavedLayerIndex`, and the construction flags.  External
collaborators (canvas matrix/clip state, bounding-box hierarchy contents,
state tree) are out of scope per the spec; only the presence of a bounding-box
hierarchy is tracked because `restore` consults it. -/
structure RecState where
  writer : SkWriter32
  stack : List Int
  paints : List SkPaint
  bitmaps : List Nat
  pictureRefs : List Nat
  refEvents : List Nat
  firstSavedLayerIndex : Int
  disableOpts : Bool
  hasBBH : Bool
deriving DecidableEq

def initState (disableOpts hasBBH : Bool) : RecState :=
  { writer := ⟨[]⟩, stack := [], paints := [], bitmaps := [], pictureRefs := [],
    refEvents := [], firstSavedLayerIndex := -1,
    disableOpts := disableOpts, hasBBH := hasBBH }

/-- Fuel bound used by the loops below; any value at least the number of words
in the writer plus a small constant is sufficient on well-formed streams. -/
def stdFuel (w : SkWriter32) : Nat := w.words.length + 8

/-! ## The restore-offset placeholder protocol -/

/-- Source `SkPictureRecord::fillRestoreOffsetPlaceholdersForCurrentStackLevel`
(src/unnamed/part_000 lines 703-717): walk the in-stream linked list from the
given stack value while it is positive, overwriting each slot with
`restoreOffset` and following the old contents.  Fuel-based; `none` marks fuel
exhaustion (unreachable on well-formed chains). -/
def fillPlaceholders : Nat → SkWriter32 → Int → Nat → Option SkWriter32
  | 0, _, _, _ => none
  | fuel + 1, w, off, v =>
    if 0 < off then
      let pk := read32At w off.toNat
      fillPlaceholders fuel (write32At w off.toNat v) (s32 pk) v
    else some w

/-- Source `while (offset > 0) offset = writer->read32At(offset);` — the backward walk
shared by the three optimization procedures. -/
def backWalk (w : SkWriter32) : Nat → Int → Option Int
  | 0, _ => none
  | fuel + 1, off =>
    if 0 < off then backWalk w fuel (s32 (read32At w off.toNat)) else some off

/-! ## getPaintOffset -/

/-- The `gPaintOffsets` table of `getPaintOffset` (src/unnamed/part_000 lines
67-108), in enum order: paint word index within the command, 0 = no paint. -/
def gPaintOffsets : List Nat :=
  [0, 0, 0, 0, 0, 0, 1, 1, 1, 1, 0, 0, 1, 1, 1, 0, 1, 1, 1, 1,
   1, 1, 1, 1, 1, 1, 1, 1, 0, 0, 0, 0, 0, 0, 0, 0, 0, 0, 0, 0]

/-- Source `getPaintOffset` (src/unnamed/part_000 lines 65-134): byte offset of the
paint index inside a command, adding 4 when the size field overflows, with the
`SAVE_LAYER` special case keyed on the bounds-dependent command size. -/
def getPaintOffset (op opSize : Nat) : Nat :=
  let overflow := if MASK24 ≤ opSize then 4 else 0
  if op = SAVE_LAYER then
    if opSize = kSaveLayerNoBoundsSize then 2 * kUInt32Size + overflow
    else 2 * kUInt32Size + 16 + overflow
  else gPaintOffsets.getD op 0 * 4 + overflow

/-! ## The pattern matcher used by the save-layer optimizations -/

structure CommandInfo where
  actualOp : Nat
  offset : Nat
  size : Nat
deriving DecidableEq

inductive PatElem
  | exact (op : Nat)
  | dbmFlavor
deriving DecidableEq

/-- Source `kDRAW_BITMAP_FLAVOR` acceptance set (src/unnamed/part_000 lines 269-273). -/
def patMatches : PatElem → Nat → Bool
  | .exact o, op => op == o
  | .dbmFlavor, op =>
    op == DRAW_BITMAP || op == DRAW_BITMAP_MATRIX ||
    op == DRAW_BITMAP_NINE || op == DRAW_BITMAP_RECT_TO_RECT

/-- The inner NOOP-skipping loop of `match` (src/unnamed/part_000 lines
259-263): peek, and while the op is NOOP and the offset is in range, advance
by the size and peek again.  Returns the first non-skipped op, its size and
its offset. -/
def skipNoops (w : SkWriter32) : Nat → Nat → Option (Nat × Nat × Nat)
  | 0, _ => none
  | fuel + 1, curOffset =>
    let pr := peek_op_and_size w curOffset
    if pr.1 = NOOP ∧ curOffset < bytesWritten w then
      skipNoops w fuel (curOffset + pr.2)
    else some (pr.1, pr.2, curOffset)

/-- The main loop of `match` (src/unnamed/part_000 lines 258-283).  Returns
`some none` for a failed match, and on success the command infos together with
the final `curOffset` and `curSize` needed by the post-loop check. -/
def matchLoop (w : SkWriter32) (fuel : Nat) :
    Nat → Nat → List PatElem → List CommandInfo →
    Option (Option (List CommandInfo × Nat × Nat))
  | curOffset, curSize, [], acc => some (some (acc.reverse, curOffset, curSize))
  | curOffset, _, p :: ps, acc =>
    if curOffset < bytesWritten w then
      match skipNoops w fuel curOffset with
      | none => none
      | some (op, sz, off) =>
        if bytesWritten w ≤ off then some none
        else if patMatches p op then
          matchLoop w fuel (off + sz) sz ps
            ({ actualOp := op, offset := off, size := sz } :: acc)
        else some none
    else some none

/-- Source `match` (src/unnamed/part_000 lines 251-296), NOOP-skipping included; the
post-loop check adds `curSize` once more before comparing with the stream
tail, exactly as the source does. -/
def matchPat (w : SkWriter32) (fuel : Nat) (offset : Nat) (pat : List PatElem) :
    Option (Option (List CommandInfo)) :=
  match matchLoop w fuel offset 0 pat [] with
  | none => none
  | some none => some none
  | some (some (res, curOffset, curSize)) =>
    if curOffset + curSize < bytesWritten w then some none else some (some res)

/-! ## The three restore-time optimization procedures -/

/-- Source `merge_savelayer_paint_into_drawbitmp` (src/unnamed/part_000 lines
349-412).  Returns whether the optimization fired together with the updated
writer and paint dictionary. -/
def merge_savelayer_paint_into_drawbitmp (w : SkWriter32) (dict : List SkPaint)
    (saveLayerInfo dbmInfo : CommandInfo) : Bool × SkWriter32 × List SkPaint :=
  let dbmPaintOffset := getPaintOffset dbmInfo.actualOp dbmInfo.size
  let slPaintOffset := getPaintOffset SAVE_LAYER saveLayerInfo.size
  let dbmPaintId := read32At w (dbmInfo.offset + dbmPaintOffset)
  let saveLayerPaintId := read32At w (saveLayerInfo.offset + slPaintOffset)
  if saveLayerPaintId = 0 then
    (true, convert_command_to_noop w saveLayerInfo.offset, dict)
  else if dbmPaintId = 0 then
    (true,
     write32At (convert_command_to_noop w saveLayerInfo.offset)
       (dbmInfo.offset + dbmPaintOffset) saveLayerPaintId,
     dict)
  else
    match unflatten dict saveLayerPaintId with
    | none => (false, w, dict)
    | some saveLayerPaint =>
      if !is_simple saveLayerPaint then (false, w, dict)
      else
        let layerColor := forceOpaqueColor saveLayerPaint.color
        match unflatten dict dbmPaintId with
        | none => (false, w, dict)
        | some dbmPaint =>
          if dbmPaint.color ≠ layerColor then (false, w, dict)
          else
            let newColor := SkColorSetA dbmPaint.color (SkColorGetA saveLayerPaint.color)
            let newPaint : SkPaint := { dbmPaint with color := newColor }
            let fr := findAndReturnFlat dict newPaint
            (true,
             write32At (convert_command_to_noop w saveLayerInfo.offset)
               (dbmInfo.offset + dbmPaintOffset) fr.1,
             fr.2)

/-- Source `remove_save_layer1` (src/unnamed/part_000 lines 312-334): back up the
chain to the save block, match `SAVE_LAYER · DRAW_BITMAP-flavor` against the
stream tail, reject a bounded save-layer, then merge. -/
def remove_save_layer1 (w : SkWriter32) (offset : Int) (dict : List SkPaint) :
    Option (Bool × SkWriter32 × List SkPaint) :=
  match backWalk w (stdFuel w) offset with
  | none => none
  | some neg =>
    match matchPat w (stdFuel w) (-neg).toNat [.exact SAVE_LAYER, .dbmFlavor] with
    | none => none
    | some none => some (false, w, dict)
    | some (some res) =>
      match res with
      | [info0, info1] =>
        if info0.size = kSaveLayerWithBoundsSize then some (false, w, dict)
        else some (merge_savelayer_paint_into_drawbitmp w dict info0 info1)
      | _ => some (false, w, dict)

/-- Source `remove_save_layer2` (src/unnamed/part_000 lines 425-448): the variant
matching `SAVE_LAYER · SAVE · CLIP_RECT · DRAW_BITMAP-flavor · RESTORE`. -/
def remove_save_layer2 (w : SkWriter32) (offset : Int) (dict : List SkPaint) :
    Option (Bool × SkWriter32 × List SkPaint) :=
  match backWalk w (stdFuel w) offset with
  | none => none
  | some neg =>
    match matchPat w (stdFuel w) (-neg).toNat
        [.exact SAVE_LAYER, .exact SAVE, .exact CLIP_RECT, .dbmFlavor, .exact RESTORE] with
    | none => none
    | some none => some (false, w, dict)
    | some (some res) =>
      match res with
      | [info0, _, _, info3, _] =>
        if info0.size = kSaveLayerWithBoundsSize then some (false, w, dict)
        else some (merge_savelayer_paint_into_drawbitmp w dict info0 info3)
      | _ => some (false, w, dict)

/-- The abort test of the forward scan in `collapse_save_clip_restore`
(src/unnamed/part_000 line 498): `(op > CONCAT && op < ROTATE) || (SAVE_LAYER
== op)`. -/
def isCollapseAbortOp (op : Nat) : Bool :=
  (decide (CONCAT < op) && decide (op < ROTATE)) || op == SAVE_LAYER

/-- The forward scan of `collapse_save_clip_restore` (src/unnamed/part_000
lines 495-503): walk from the end of the SAVE command to the pending restore
offset; `some true` means an aborting opcode was found. -/
def scanForAbortOp (w : SkWriter32) : Nat → Nat → Nat → Option Bool
  | 0, _, _ => none
  | fuel + 1, off, stop =>
    if off < stop then
      let pr := peek_op_and_size w off
      if isCollapseAbortOp pr.1 then some true
      else scanForAbortOp w fuel (off + pr.2) stop
    else some false

/-- Source `collapse_save_clip_restore` (src/unnamed/part_000 lines 458-513). -/
def collapse_save_clip_restore (w : SkWriter32) (offset : Int) :
    Option (Bool × SkWriter32) :=
  let restoreOffset := bytesWritten w
  match backWalk w (stdFuel w) offset with
  | none => none
  | some neg =>
    let saveOffset := (-neg).toNat
    let pr := peek_op_and_size w saveOffset
    if pr.1 = SAVE_LAYER then some (false, w)
    else
      let saveFlags := read32At w (saveOffset + 4)
      if saveFlags ≠ kMatrixClipSaveFlag then some (false, w)
      else
        match scanForAbortOp w (stdFuel w) (saveOffset + pr.2) restoreOffset with
        | none => none
        | some true => some (false, w)
        | some false => some (true, rewindToOffset w saveOffset)

/-- The optimization loop of `SkPictureRecord::restore` (src/unnamed/part_000
lines 589-603): `collapse_save_clip_restore` (skipped when a bounding-box
hierarchy is present), then `remove_save_layer1`, then `remove_save_layer2`;
the first procedure that fires wins.  `some (some (w, d))` = an optimization
fired, `some none` = none fired. -/
def tryOptimizations (w : SkWriter32) (dict : List SkPaint) (hasBBH : Bool)
    (top : Int) : Option (Option (SkWriter32 × List SkPaint)) :=
  let tailOpts : Option (Option (SkWriter32 × List SkPaint)) :=
    match remove_save_layer1 w top dict with
    | none => none
    | some (true, w1, d1) => some (some (w1, d1))
    | some (false, _, _) =>
      match remove_save_layer2 w top dict with
      | none => none
      | some (true, w2, d2) => some (some (w2, d2))
      | some (false, _, _) => some none
  if hasBBH then tailOpts
  else
    match collapse_save_clip_restore w top with
    | none => none
    | some (true, w0) => some (some (w0, dict))
    | some (false, _) => tailOpts

/-! ## The recorder API

Each method mirrors the corresponding `SkPictureRecord::` member in
src/unnamed/part_000: compute the declared size, emit the header, append the
payload words.  Scalars and rectangle coordinates are opaque 32-bit patterns
(the recorder only copies their bits). -/

structure SkRectW where
  l : Nat
  t : Nat
  r : Nat
  b : Nat
deriving DecidableEq

def addRect (w : SkWriter32) (rc : SkRectW) : SkWriter32 :=
  appendWord (appendWord (appendWord (appendWord w rc.l) rc.t) rc.r) rc.b

/-- Source `addRectPtr`: a bool word, then the rect when present. -/
def addRectPtr (w : SkWriter32) (rc : Option SkRectW) : SkWriter32 :=
  match rc with
  | none => appendWord w 0
  | some rc => addRect (appendWord w 1) rc

/-- Source `addPaintPtr`/`addFlatPaint`: NULL paint records index 0, otherwise the
dictionary index of the (possibly freshly interned) paint. -/
def addPaintPtrIdx (d : List SkPaint) (p : Option SkPaint) : Nat × List SkPaint :=
  match p with
  | none => (0, d)
  | some p => findAndReturnFlat d p

/-- Zero-based position of the first occurrence, mirroring `SkTDArray::find`. -/
def findIndex0 : List Nat → Nat → Option Nat
  | [], _ => none
  | q :: rest, x => if q = x then some 0 else (findIndex0 rest x).map (· + 1)

/-- Source `SkBitmapHeap::insert` modelled as find-or-append by identity token. -/
def bitmapInsert (hs : List Nat) (bm : Nat) : Nat × List Nat :=
  match findIndex0 hs bm with
  | some i => (i, hs)
  | none => (hs.length, hs ++ [bm])

/-- Source `SkPictureRecord::addPicture` (src/unnamed/part_000 lines 1363-1372):
deduplicate by pointer identity, `ref()` (recorded in the audit list) only on
first occurrence, and return the written 1-based index. -/
def addPictureIdx (refs events : List Nat) (pic : Nat) :
    Nat × List Nat × List Nat :=
  match findIndex0 refs pic with
  | some i => (i + 1, refs, events)
  | none => (refs.length + 1, refs ++ [pic], events ++ [pic])

/-- Source `recordSave`: op + flags, 8 bytes. -/
def recordSave (s : RecState) (flags : Nat) : RecState :=
  { s with writer := appendWord (emitHeader s.writer SAVE kSaveSize) flags }

/-- Source `SkPictureRecord::save` (src/unnamed/part_000 lines 141-147): push the
negated current write offset, then record the SAVE command. -/
def SkPictureRecord.save (s : RecState) (flags : Nat) : RecState :=
  recordSave { s with stack := -(bytesWritten s.writer : Int) :: s.stack } flags

/-- Source `recordSaveLayer` (src/unnamed/part_000 lines 179-198). -/
def recordSaveLayer (s : RecState) (bounds : Option SkRectW)
    (paint : Option SkPaint) (flags : Nat) : RecState :=
  let size := 2 * kUInt32Size + (match bounds with | some _ => 16 | none => 0)
      + 2 * kUInt32Size
  let w := emitHeader s.writer SAVE_LAYER size
  let w := addRectPtr w bounds
  let pr := addPaintPtrIdx s.paints paint
  let w := appendWord w pr.1
  let w := appendWord w flags
  { s with writer := w, paints := pr.2 }

/-- Source `SkPictureRecord::saveLayer` (src/unnamed/part_000 lines 158-177), sans
the external canvas bookkeeping. -/
def SkPictureRecord.saveLayer (s : RecState) (bounds : Option SkRectW)
    (paint : Option SkPaint) (flags : Nat) : RecState :=
  let s := recordSaveLayer
    { s with stack := -(bytesWritten s.writer : Int) :: s.stack } bounds paint flags
  if s.firstSavedLayerIndex = -1 then
    { s with firstSavedLayerIndex := (s.stack.length : Int) }
  else s

/-- Source `SkPictureRecord::translate` (src/unnamed/part_000 lines 624-632). -/
def SkPictureRecord.translate (s : RecState) (dx dy : Nat) : RecState :=
  { s with writer := appendWord (appendWord (emitHeader s.writer TRANSLATE 12) dx) dy }

/-- Source `SkPictureRecord::recordRestoreOffsetPlaceholder` (src/unnamed/part_000
lines 731-759): on an expanding op first neutralize the current scope's
placeholder chain to 0 and break the link; then append the previous chain
head and make the new slot the chain head. -/
def recordRestoreOffsetPlaceholder (s : RecState) (op : RegionOp) :
    Option RecState :=
  match s.stack with
  | [] => some s
  | top :: rest =>
    if regionOpExpands op then
      match fillPlaceholders (stdFuel s.writer) s.writer top 0 with
      | none => none
      | some w1 =>
        let off := bytesWritten w1
        some { s with writer := appendWord w1 (u32 0), stack := (off : Int) :: rest }
    else
      let off := bytesWritten s.writer
      some { s with writer := appendWord s.writer (u32 top), stack := (off : Int) :: rest }

/-- Source `SkPictureRecord::recordClipRect` (src/unnamed/part_000 lines 766-783). -/
def recordClipRect (s : RecState) (rect : SkRectW) (op : RegionOp)
    (doAA : Bool) : Option RecState :=
  let size := 1 * kUInt32Size + 16 + 1 * kUInt32Size
      + (if s.stack.isEmpty then 0 else kUInt32Size)
  let w := emitHeader s.writer CLIP_RECT size
  let w := addRect w rect
  let w := appendWord w (ClipParams_pack op doAA)
  recordRestoreOffsetPlaceholder { s with writer := w } op

/-- Source `SkPictureRecord::drawRect` (src/unnamed/part_000 lines 914-922). -/
def SkPictureRecord.drawRect (s : RecState) (rect : SkRectW) (paint : SkPaint) :
    RecState :=
  let w := emitHeader s.writer DRAW_RECT (2 * kUInt32Size + 16)
  let pr := findAndReturnFlat s.paints paint
  { s with writer := addRect (appendWord w pr.1) rect, paints := pr.2 }

/-- Source `SkPictureRecord::drawBitmap` (src/unnamed/part_000 lines 951-962):
op + paint index + bitmap index + left + top, 20 bytes. -/
def SkPictureRecord.drawBitmap (s : RecState) (bm : Nat) (left top : Nat)
    (paint : Option SkPaint) : RecState :=
  let w := emitHeader s.writer DRAW_BITMAP (3 * kUInt32Size + 8)
  let pr := addPaintPtrIdx s.paints paint
  let w := appendWord w pr.1
  let br := bitmapInsert s.bitmaps bm
  let w := appendWord w br.1
  let w := appendWord (appendWord w left) top
  { s with writer := w, paints := pr.2, bitmaps := br.2 }

/-- Source `SkPictureRecord::drawPicture` (src/unnamed/part_000 lines 1211-1217). -/
def SkPictureRecord.drawPicture (s : RecState) (pic : Nat) : RecState :=
  let w := emitHeader s.writer DRAW_PICTURE (2 * kUInt32Size)
  let pr := addPictureIdx s.pictureRefs s.refEvents pic
  { s with writer := appendWord w pr.1, pictureRefs := pr.2.1, refEvents := pr.2.2 }

/-- The writer-level effect of `recordRestore` (src/unnamed/part_000 lines
616-622): fill the current scope's placeholders with the pending write offset
and emit the one-word RESTORE command there. -/
def recordRestoreW (w : SkWriter32) (top : Int) : Option SkWriter32 :=
  match fillPlaceholders (stdFuel w) w top (bytesWritten w) with
  | none => none
  | some w1 => some (emitHeader w1 RESTORE (1 * kUInt32Size))

/-- Source `SkPictureRecord::recordRestore`. -/
def SkPictureRecord.recordRestore (s : RecState) : Option RecState :=
  match recordRestoreW s.writer (s.stack.headD 0) with
  | none => none
  | some w1 => some { s with writer := w1 }

/-- Source `SkPictureRecord::restore` (src/unnamed/part_000 lines 572-614): ignore an
underflowing call; reset `fFirstSavedLayerIndex` when leaving the first saved
layer; unless optimizations are disabled run the optimization list; when no
optimization fires record a RESTORE (back-patching placeholders); finally pop
one stack frame.  The debug-only assertion at the top of the source function
is excluded from compilation by `#if 0`. -/
def SkPictureRecord.restore (s : RecState) : Option RecState :=
  if s.stack.isEmpty then some s
  else
    let fsli := if (s.stack.length : Int) = s.firstSavedLayerIndex then (-1 : Int)
      else s.firstSavedLayerIndex
    let top := s.stack.headD 0
    let afterOpts : Option (Option (SkWriter32 × List SkPaint)) :=
      if s.disableOpts then some none
      else tryOptimizations s.writer s.paints s.hasBBH top
    match afterOpts with
    | none => none
    | some (some (w1, d1)) =>
      some { s with writer := w1, paints := d1, stack := s.stack.tail,
                    firstSavedLayerIndex := fsli }
    | some none =>
      match recordRestoreW s.writer top with
      | none => none
      | some w1 =>
        some { s with writer := w1, stack := s.stack.tail,
                      firstSavedLayerIndex := fsli }

/-- Debug-build semantics of `SkPictureRecord::restore` on the underflow path:
the source guards it only by the `#if 0`-disabled assertion (src/unnamed/
part_000 lines 576-583), so an underflowing call raises no assertion in debug
builds either; it simply returns.  Away from that path debug and release
coincide apart from assertions that cannot fail and are not modelled. -/
def restoreDebugBuild (s : RecState) : Except Unit RecState :=
  if s.stack.isEmpty then Except.ok s
  else
    match SkPictureRecord.restore s with
    | none => Except.error ()
    | some s1 => Except.ok s1

/-! ## The specification's draw-verb set, and concrete scenario states

`specDrawVerb` renders the draw-verb set exactly as the specification words it
for Rule A (the `DRAW_*` opcodes plus `SAVE_LAYER`); the source's range test
`op > CONCAT && op < ROTATE` additionally contains `RESTORE`.  The two are
compared by the C1 theorems. -/

def specDrawVerb (op : Nat) : Bool :=
  (decide (DRAW_BITMAP ≤ op) && decide (op ≤ DRAW_VERTICES)) || op == SAVE_LAYER

/-- The forward scan of Rule A, but with the specification's draw-verb set in
place of the source's numeric range test. -/
def scanForSpecDrawVerb (w : SkWriter32) : Nat → Nat → Nat → Option Bool
  | 0, _, _ => none
  | fuel + 1, off, stop =>
    if off < stop then
      let pr := peek_op_and_size w off
      if specDrawVerb pr.1 then some true
      else scanForSpecDrawVerb w fuel (off + pr.2) stop
    else some false

/-- Layer paint `#80FF0000`: red with alpha 128, no effects. -/
def pLayer : SkPaint :=
  ⟨0x80FF0000, false, false, false, false, false, false, false, false⟩

/-- Layer paint `#80FFFFFF` from scenario S4 as the spec words it. -/
def pLayerWhite : SkPaint :=
  ⟨0x80FFFFFF, false, false, false, false, false, false, false, false⟩

/-- Draw paint `#FFFF0000`: opaque red, no effects. -/
def pDrawRed : SkPaint :=
  ⟨0xFFFF0000, false, false, false, false, false, false, false, false⟩

/-- Opaque red draw paint carrying a shader (still mergeable: only the layer
paint must be simple). -/
def pDrawRedShader : SkPaint :=
  ⟨0xFFFF0000, false, true, false, false, false, false, false, false⟩

def rect1 : SkRectW := ⟨1, 2, 3, 4⟩

def rect2 : SkRectW := ⟨5, 6, 7, 8⟩

/-- Source `save(MatrixClip); translate(1,2)` on a default recorder. -/
def sC1a : RecState :=
  SkPictureRecord.translate (SkPictureRecord.save (initState false false) 3) 1 2

/-- Source `save(MatrixClip); save(Matrix); restore()` on a default recorder: the
inner scope does not collapse (flags are not MatrixClip), so a RESTORE is
emitted into the outer scope's body. -/
def sC1b : RecState :=
  (SkPictureRecord.restore
    (SkPictureRecord.save (SkPictureRecord.save (initState false false) 3) 1)).getD
    (initState false false)

/-- Scenario S4 exactly as the claim words it: `saveLayer(None, #80FFFFFF);
drawBitmap(B, 0, 0, #FFFF0000)`. -/
def sC2claim : RecState :=
  SkPictureRecord.drawBitmap
    (SkPictureRecord.saveLayer (initState false false) none (some pLayerWhite) 3)
    7 0 0 (some pDrawRed)

/-- The RGB-matching variant: `saveLayer(None, #80FF0000);
drawBitmap(B, 0, 0, #FFFF0000-with-shader)`. -/
def sC2w : RecState :=
  SkPictureRecord.drawBitmap
    (SkPictureRecord.saveLayer (initState false false) none (some pLayer) 3)
    7 0 0 (some pDrawRedShader)

/-- Scenario S3: `saveLayer(None, None); drawBitmap(B, 0, 0, None)`. -/
def sC3w : RecState :=
  SkPictureRecord.drawBitmap
    (SkPictureRecord.saveLayer (initState false false) none none 3) 7 0 0 none

/-- Source `save(); clipRect(R1, Intersect)` on a default recorder. -/
def sC4w : RecState :=
  (recordClipRect (SkPictureRecord.save (initState false false) 3)
    rect1 .intersect false).getD (initState false false)

/-- Scenario S5 on a default recorder, up to the second (Union) clip. -/
def sC4run : Option RecState :=
  (recordClipRect (SkPictureRecord.save (initState false false) 3)
    rect1 .intersect false).bind
    (fun s => recordClipRect s rect2 .union false)

/-- Scenario S5 with `DisableRecordOptimizations`, up to the second clip. -/
def sC5w : RecState :=
  ((recordClipRect (SkPictureRecord.save (initState true false) 3)
      rect1 .intersect false).bind
    (fun s => recordClipRect s rect2 .union false)).getD (initState true false)

/-- Source `save(MatrixClip)` alone. -/
def sC10 : RecState := SkPictureRecord.save (initState false false) 3

def sC10res : RecState :=
  (SkPictureRecord.restore sC10).getD (initState false false)

/-! ## Basic writer lemmas -/

theorem getD_set_eq (l : List Nat) (i v d : Nat) (h : i < l.length) :
    (l.set i v).getD i d = v := by
  induction l generalizing i with
  | nil => simp at h
  | cons a t ih =>
    cases i with
    | zero => rfl
    | succ n => exact ih n (by simpa using h)

theorem getD_set_ne (l : List Nat) (i j v d : Nat) (h : i ≠ j) :
    (l.set i v).getD j d = l.getD j d := by
  induction l generalizing i j with
  | nil => rfl
  | cons a t ih =>
    cases i with
    | zero =>
      cases j with
      | zero => exact absurd rfl h
      | succ m => rfl
    | succ n =>
      cases j with
      | zero => rfl
      | succ m => exact ih n m (by omega)

theorem bytesWritten_write32At (w : SkWriter32) (off v : Nat) :
    bytesWritten (write32At w off v) = bytesWritten w := by
  simp [bytesWritten, write32At]

theorem bytesWritten_appendWord (w : SkWriter32) (v : Nat) :
    bytesWritten (appendWord w v) = bytesWritten w + 4 := by
  simp [bytesWritten, appendWord]; omega

theorem read32At_write32At_eq (w : SkWriter32) (off v : Nat)
    (h : off < bytesWritten w) :
    read32At (write32At w off v) off = v := by
  have hlt : off / 4 < w.words.length := by
    simp only [bytesWritten] at h; omega
  show (w.words.set (off / 4) v).getD (off / 4) 0 = v
  exact getD_set_eq _ _ _ _ hlt

theorem read32At_write32At_ne (w : SkWriter32) (off off' v : Nat)
    (h4 : off % 4 = 0) (h4' : off' % 4 = 0) (hne : off ≠ off') :
    read32At (write32At w off v) off' = read32At w off' := by
  have hd : off / 4 ≠ off' / 4 := by omega
  show (w.words.set (off / 4) v).getD (off' / 4) 0 = w.words.getD (off' / 4) 0
  exact getD_set_ne _ _ _ _ _ hd

theorem read32At_append_ext (w : SkWriter32) (ext : List Nat) (off : Nat)
    (h : off < bytesWritten w) :
    read32At ⟨w.words ++ ext⟩ off = read32At w off := by
  have hlt : off / 4 < w.words.length := by
    simp only [bytesWritten] at h; omega
  show (w.words ++ ext).getD (off / 4) 0 = w.words.getD (off / 4) 0
  exact List.getD_append _ _ _ _ hlt

theorem read32At_appendWord_lt (w : SkWriter32) (v : Nat) (off : Nat)
    (h : off < bytesWritten w) :
    read32At (appendWord w v) off = read32At w off :=
  read32At_append_ext w [v] off h

theorem read32At_appendWord_at_end (w : SkWriter32) (v : Nat) :
    read32At (appendWord w v) (bytesWritten w) = v := by
  have h : bytesWritten w / 4 = w.words.length := by
    simp only [bytesWritten]; omega
  show (w.words ++ [v]).getD (bytesWritten w / 4) 0 = v
  rw [h, List.getD_append_right _ _ _ _ (le_refl _)]
  simp

/-! ## Well-formed placeholder chains

A chain is the list of in-stream placeholder slots reachable from a
restore-offset stack value: positive values are slot offsets (aligned, in
range, strictly decreasing along the links), and the walk stops at the first
non-positive value (the negated SAVE offset, or 0 for a save recorded at
offset 0 or a neutralized link). -/

inductive Chain (w : SkWriter32) : Int → List Nat → Prop where
  | nil (o : Int) (h : o ≤ 0) : Chain w o []
  | cons (o : Int) (l : List Nat) (hpos : 0 < o) (hal : o.toNat % 4 = 0)
      (hlt : o.toNat < bytesWritten w)
      (hdec : s32 (read32At w o.toNat) < o)
      (hrest : Chain w (s32 (read32At w o.toNat)) l) :
      Chain w o (o.toNat :: l)

theorem chain_elem_le (w : SkWriter32) (o : Int) (l : List Nat)
    (hc : Chain w o l) :
    ∀ i ∈ l, (i : Int) ≤ o ∧ i % 4 = 0 ∧ i < bytesWritten w := by
  induction hc with
  | nil => intro i hi; simp at hi
  | cons o l hpos hal hlt hdec hrest ih =>
    intro i hi
    rcases List.mem_cons.mp hi with h | h
    · subst h; exact ⟨by omega, hal, hlt⟩
    · obtain ⟨h1, h2, h3⟩ := ih i h
      exact ⟨by omega, h2, h3⟩

theorem chain_cons_head (w : SkWriter32) (o : Int) (a : Nat) (t : List Nat)
    (hc : Chain w o (a :: t)) :
    0 < o ∧ a = o.toNat ∧ o.toNat % 4 = 0 ∧ o.toNat < bytesWritten w := by
  cases hc with
  | cons o l hpos hal hlt hdec hrest => exact ⟨hpos, rfl, hal, hlt⟩

theorem chain_length_bound (w : SkWriter32) :
    ∀ (l : List Nat) (o : Int), Chain w o l → 4 * l.length ≤ o.toNat + 4 := by
  intro l
  induction l with
  | nil => intro o _; simp
  | cons a t ih =>
    intro o hc
    cases hc with
    | cons o l hpos hal hlt hdec hrest =>
      have iht := ih _ hrest
      cases t with
      | nil =>
        simp only [List.length_cons, List.length_nil]
        omega
      | cons b t2 =>
        obtain ⟨hpos2, _, hal2, _⟩ := chain_cons_head w _ b t2 hrest
        simp only [List.length_cons] at iht ⊢
        omega

theorem chain_length_lt_stdFuel (w : SkWriter32) (o : Int) (l : List Nat)
    (hc : Chain w o l) : l.length < stdFuel w := by
  have hb := chain_length_bound w l o hc
  cases hc with
  | nil => simp [stdFuel]
  | cons o l hpos hal hlt hdec hrest =>
    simp only [bytesWritten] at hlt
    simp only [stdFuel]
    omega

theorem chain_of_append (w : SkWriter32) (ext : List Nat) (o : Int)
    (l : List Nat) (hc : Chain w o l) : Chain ⟨w.words ++ ext⟩ o l := by
  induction hc with
  | nil o h => exact Chain.nil o h
  | cons o l hpos hal hlt hdec hrest ih =>
    have hlt' : o.toNat < bytesWritten (⟨w.words ++ ext⟩ : SkWriter32) := by
      simp only [bytesWritten, List.length_append] at hlt ⊢; omega
    have hr : read32At (⟨w.words ++ ext⟩ : SkWriter32) o.toNat = read32At w o.toNat :=
      read32At_append_ext w ext o.toNat hlt
    exact Chain.cons o l hpos hal hlt' (hr ▸ hdec) (hr ▸ ih)

theorem chain_of_write_notmem (w : SkWriter32) (p v : Nat) (o : Int)
    (l : List Nat) (hp : p % 4 = 0) (hc : Chain w o l)
    (hnot : ∀ i ∈ l, i ≠ p) : Chain (write32At w p v) o l := by
  induction hc with
  | nil o h => exact Chain.nil o h
  | cons o l hpos hal hlt hdec hrest ih =>
    have hne : o.toNat ≠ p := hnot o.toNat (List.mem_cons_self _ _)
    have hr : read32At (write32At w p v) o.toNat = read32At w o.toNat :=
      read32At_write32At_ne w p o.toNat v hp hal (fun h => hne h.symm)
    have hlt' : o.toNat < bytesWritten (write32At w p v) := by
      rwa [bytesWritten_write32At]
    exact Chain.cons o l hpos hal hlt' (hr ▸ hdec)
      (hr ▸ ih (fun i hi => hnot i (List.mem_cons_of_mem _ hi)))

/-- Main specification of the back-patch walk: on a well-formed chain it
terminates, writes `v` into every slot of the chain, and leaves every other
aligned word (and the length) unchanged. -/
theorem fillPlaceholders_spec (l : List Nat) :
    ∀ (w : SkWriter32) (o : Int) (v fuel : Nat), Chain w o l → l.length < fuel →
    ∃ w', fillPlaceholders fuel w o v = some w' ∧
      w'.words.length = w.words.length ∧
      (∀ i ∈ l, read32At w' i = v) ∧
      (∀ j, j % 4 = 0 → j ∉ l → read32At w' j = read32At w j) := by
  induction l with
  | nil =>
    intro w o v fuel hc hf
    cases fuel with
    | zero => omega
    | succ f =>
      have ho : ¬ (0 < o) := by cases hc with | nil o h => omega
      refine ⟨w, ?_, rfl, by simp, fun j _ _ => rfl⟩
      simp [fillPlaceholders, ho]
  | cons a t ih =>
    intro w o v fuel hc hf
    cases hc with
    | cons o l hpos hal hlt hdec hrest =>
      cases fuel with
      | zero => omega
      | succ f =>
        have hstep : fillPlaceholders (f + 1) w o v =
            fillPlaceholders f (write32At w o.toNat v) (s32 (read32At w o.toNat)) v := by
          simp [fillPlaceholders, hpos]
        have htail_lt : ∀ i ∈ t, (i : Int) < o := by
          intro i hi
          have := (chain_elem_le w _ t hrest i hi).1
          omega
        have htail_ne : ∀ i ∈ t, i ≠ o.toNat := by
          intro i hi h
          have := htail_lt i hi
          omega
        have hc' : Chain (write32At w o.toNat v) (s32 (read32At w o.toNat)) t :=
          chain_of_write_notmem w o.toNat v _ t hal hrest htail_ne
        obtain ⟨w', hw', hlen, hmem, hrestr⟩ :=
          ih (write32At w o.toNat v) (s32 (read32At w o.toNat)) v f hc'
            (by simpa using Nat.lt_of_succ_lt_succ hf)
        refine ⟨w', by rw [hstep, hw'], ?_, ?_, ?_⟩
        · simp only [hlen, write32At]; simp
        · intro i hi
          rcases List.mem_cons.mp hi with h | h
          · subst h
            have : read32At w' o.toNat = read32At (write32At w o.toNat v) o.toNat :=
              hrestr o.toNat hal (fun hmem' => (htail_ne o.toNat hmem') rfl)
            rw [this, read32At_write32At_eq w o.toNat v hlt]
          · exact hmem i h
        · intro j hj hjn
          have hj1 : j ∉ t := fun h => hjn (List.mem_cons_of_mem _ h)
          have hj2 : j ≠ o.toNat := fun h => hjn (h ▸ List.mem_cons_self _ _)
          rw [hrestr j hj hj1,
            read32At_write32At_ne w o.toNat j v hal hj (fun h => hj2 h.symm)]

/-! ## Claim C4: region-expanding clip neutralization -/

theorem u32_zero : u32 0 = 0 := rfl

/-- Helper: the writer after the header/rect/params appends of
`recordClipRect` on a non-empty stack. -/
theorem recordClipRect_expanding_unfold (s : RecState) (rect : SkRectW)
    (op : RegionOp) (doAA : Bool) (top : Int) (rest : List Int)
    (hS : s.stack = top :: rest) (hE : regionOpExpands op = true) :
    recordClipRect s rect op doAA =
      (match fillPlaceholders
          (stdFuel (⟨s.writer.words ++
            [CLIP_RECT * 2 ^ 24 + 28, rect.l, rect.t, rect.r, rect.b,
             ClipParams_pack op doAA]⟩ : SkWriter32))
          (⟨s.writer.words ++
            [CLIP_RECT * 2 ^ 24 + 28, rect.l, rect.t, rect.r, rect.b,
             ClipParams_pack op doAA]⟩ : SkWriter32) top 0 with
      | none => none
      | some w1 =>
        some { s with writer := appendWord w1 (u32 0),
                      stack := (bytesWritten w1 : Int) :: rest }) := by
  have hne : s.stack.isEmpty = false := by rw [hS]; rfl
  simp only [recordClipRect, hne, Bool.false_eq_true, if_false,
    recordRestoreOffsetPlaceholder, hS, hE, if_true, emitHeader, addRect,
    appendWord, kUInt32Size]
  norm_num [MASK24, CLIP_RECT]

/-- C4: for every clip command recorded with a region-expanding op (Union,
XOR, ReverseDifference, Replace) while the restore-offset stack is non-empty,
every placeholder slot already linked in the current scope is overwritten
with 0, the newly appended placeholder word is itself 0 (and becomes the new
chain head on the stack), and all other previously written words are
untouched. -/
theorem C4_expanding_clip_neutralizes (s : RecState) (rect : SkRectW)
    (op : RegionOp) (doAA : Bool) (top : Int) (rest : List Int) (l : List Nat)
    (hS : s.stack = top :: rest) (hC : Chain s.writer top l)
    (hE : regionOpExpands op = true) :
    ∃ s', recordClipRect s rect op doAA = some s' ∧
      (∀ i ∈ l, read32At s'.writer i = 0) ∧
      read32At s'.writer (bytesWritten s.writer + 24) = 0 ∧
      s'.stack = ((bytesWritten s.writer + 24 : Nat) : Int) :: rest ∧
      bytesWritten s'.writer = bytesWritten s.writer + 28 ∧
      (∀ j, j % 4 = 0 → j < bytesWritten s.writer → j ∉ l →
        read32At s'.writer j = read32At s.writer j) := by
  set ext : List Nat :=
    [CLIP_RECT * 2 ^ 24 + 28, rect.l, rect.t, rect.r, rect.b,
     ClipParams_pack op doAA] with hext
  set w6 : SkWriter32 := ⟨s.writer.words ++ ext⟩ with hw6
  have hC6 : Chain w6 top l := chain_of_append s.writer ext top l hC
  have hfuel : l.length < stdFuel w6 := chain_length_lt_stdFuel w6 top l hC6
  obtain ⟨w7, hfill, hlen, hmem, hother⟩ :=
    fillPlaceholders_spec l w6 top 0 (stdFuel w6) hC6 hfuel
  have hextlen : ext.length = 6 := by rw [hext]; rfl
  have hb6 : bytesWritten w6 = bytesWritten s.writer + 24 := by
    rw [hw6]
    show 4 * (s.writer.words ++ ext).length = 4 * s.writer.words.length + 24
    rw [List.length_append, hextlen]
    omega
  have hb7 : bytesWritten w7 = bytesWritten s.writer + 24 := by
    have h1 : bytesWritten w7 = bytesWritten w6 := by
      show 4 * w7.words.length = 4 * w6.words.length
      rw [hlen]
    rw [h1, hb6]
  have hrun := recordClipRect_expanding_unfold s rect op doAA top rest hS hE
  rw [hfill] at hrun
  refine ⟨_, hrun, ?_, ?_, ?_, ?_, ?_⟩
  · intro i hi
    obtain ⟨_, hal, hlt⟩ := chain_elem_le s.writer top l hC i hi
    have hlt7 : i < bytesWritten w7 := by omega
    rw [read32At_appendWord_lt w7 (u32 0) i hlt7]
    exact hmem i hi
  · have := read32At_appendWord_at_end w7 (u32 0)
    rw [hb7] at this
    rw [this, u32_zero]
  · simp only [hb7]
  · simp only [bytesWritten_appendWord, hb7]
  · intro j hj hjlt hjl
    have hlt7 : j < bytesWritten w7 := by omega
    rw [read32At_appendWord_lt w7 (u32 0) j hlt7, hother j hj hjl]
    exact read32At_append_ext s.writer ext j hjlt

/-! ## Claim C5: placeholder resolution on RESTORE -/

/-- C5: when a RESTORE command is recorded, the walk from the top of the
restore-offset stack overwrites every placeholder slot of the current scope
(the well-formed chain terminates at the non-positive negated-SAVE-offset
value) with the restore's stream offset; the RESTORE header is then emitted at
exactly that offset, so each patched slot holds the offset of a RESTORE
header; all other previously written aligned words are untouched. -/
theorem C5_restore_backpatch (s : RecState) (top : Int) (rest : List Int)
    (l : List Nat) (hS : s.stack = top :: rest) (hC : Chain s.writer top l) :
    ∃ s', SkPictureRecord.recordRestore s = some s' ∧
      (∀ i ∈ l, read32At s'.writer i = bytesWritten s.writer) ∧
      peek_op_and_size s'.writer (bytesWritten s.writer) = (RESTORE, 4) ∧
      bytesWritten s'.writer = bytesWritten s.writer + 4 ∧
      (∀ j, j % 4 = 0 → j < bytesWritten s.writer → j ∉ l →
        read32At s'.writer j = read32At s.writer j) ∧
      s'.stack = s.stack := by
  have hfuel : l.length < stdFuel s.writer := chain_length_lt_stdFuel s.writer top l hC
  obtain ⟨w1, hfill, hlen, hmem, hother⟩ :=
    fillPlaceholders_spec l s.writer top (bytesWritten s.writer) (stdFuel s.writer) hC hfuel
  have hb1 : bytesWritten w1 = bytesWritten s.writer := by
    show 4 * w1.words.length = 4 * s.writer.words.length
    rw [hlen]
  have htop : s.stack.headD 0 = top := by rw [hS]; rfl
  have hrr : recordRestoreW s.writer (s.stack.headD 0) =
      some (appendWord w1 (RESTORE * 2 ^ 24 + 4)) := by
    rw [htop]
    simp only [recordRestoreW, hfill, emitHeader]
    norm_num [MASK24, kUInt32Size]
  refine ⟨{ s with writer := appendWord w1 (RESTORE * 2 ^ 24 + 4) }, ?_, ?_, ?_, ?_, ?_, ?_⟩
  · show SkPictureRecord.recordRestore s = _
    simp only [SkPictureRecord.recordRestore, hrr]
  · intro i hi
    obtain ⟨_, hal, hlt⟩ := chain_elem_le s.writer top l hC i hi
    have hlt1 : i < bytesWritten w1 := by omega
    show read32At (appendWord w1 (RESTORE * 2 ^ 24 + 4)) i = bytesWritten s.writer
    rw [read32At_appendWord_lt w1 _ i hlt1]
    exact hmem i hi
  · show peek_op_and_size (appendWord w1 (RESTORE * 2 ^ 24 + 4))
        (bytesWritten s.writer) = (RESTORE, 4)
    have hrd : read32At (appendWord w1 (RESTORE * 2 ^ 24 + 4))
        (bytesWritten s.writer) = RESTORE * 2 ^ 24 + 4 := by
      rw [← hb1]
      exact read32At_appendWord_at_end w1 _
    simp only [peek_op_and_size, hrd]
    norm_num [MASK24, RESTORE]
  · show bytesWritten (appendWord w1 (RESTORE * 2 ^ 24 + 4)) = bytesWritten s.writer + 4
    rw [bytesWritten_appendWord, hb1]
  · intro j hj hjlt hjl
    have hlt1 : j < bytesWritten w1 := by omega
    show read32At (appendWord w1 (RESTORE * 2 ^ 24 + 4)) j = read32At s.writer j
    rw [read32At_appendWord_lt w1 _ j hlt1]
    exact hother j hj hjl
  · rfl

/-! ## Claim C1: Rule A, collapse of an empty save scope -/

/-- C1 (amended): with optimizations enabled and no bounding-box hierarchy,
when the chain walk from the stack top lands on a SAVE header whose flags word
is `kMatrixClip` and the forward scan from the end of the SAVE command to the
stream tail meets no opcode in the source's abort set — the numeric range
`CONCAT < op < ROTATE`, which is the `DRAW_*` opcodes *and `RESTORE`*, plus
`SAVE_LAYER` — then `restore()` rewinds the writer to the SAVE header's offset
(erasing the SAVE command and the whole scope body), pops the frame, and emits
no RESTORE. -/
theorem C1_collapse_empty_save (s : RecState) (top neg : Int) (rest : List Int)
    (opSize : Nat)
    (hS : s.stack = top :: rest)
    (hOpt : s.disableOpts = false)
    (hB : s.hasBBH = false)
    (hW : backWalk s.writer (stdFuel s.writer) top = some neg)
    (hP : peek_op_and_size s.writer (-neg).toNat = (SAVE, opSize))
    (hF : read32At s.writer ((-neg).toNat + 4) = kMatrixClipSaveFlag)
    (hScan : scanForAbortOp s.writer (stdFuel s.writer) ((-neg).toNat + opSize)
      (bytesWritten s.writer) = some false) :
    ∃ s', SkPictureRecord.restore s = some s' ∧
      s'.writer = rewindToOffset s.writer (-neg).toNat ∧
      s'.stack = rest ∧ s'.paints = s.paints := by
  have hie : s.stack.isEmpty = false := by rw [hS]; rfl
  have htop : s.stack.headD 0 = top := by rw [hS]; rfl
  have htail : s.stack.tail = rest := by rw [hS]; rfl
  have hcol : collapse_save_clip_restore s.writer top =
      some (true, rewindToOffset s.writer (-neg).toNat) := by
    simp only [collapse_save_clip_restore, hW, hP, hF]
    norm_num [SAVE, SAVE_LAYER, kMatrixClipSaveFlag]
    simp only [hScan]
  have htry : tryOptimizations s.writer s.paints s.hasBBH (s.stack.headD 0) =
      some (some (rewindToOffset s.writer (-neg).toNat, s.paints)) := by
    rw [htop, hB]
    simp only [tryOptimizations, hcol, Bool.false_eq_true, if_false]
  have hrun : SkPictureRecord.restore s =
      some { s with writer := rewindToOffset s.writer (-neg).toNat,
                    paints := s.paints, stack := s.stack.tail,
                    firstSavedLayerIndex :=
                      if (s.stack.length : Int) = s.firstSavedLayerIndex then -1
                      else s.firstSavedLayerIndex } := by
    simp only [SkPictureRecord.restore, hie, hOpt, htry, Bool.false_eq_true,
      if_false]
  exact ⟨_, hrun, rfl, htail, rfl⟩

/-! ## Claim C2: Rule B, folding the save-layer alpha into the bitmap paint -/

/-- C2 (amended): when `restore()` finds, at the save block reached from the
stack top, the pattern SAVE_LAYER (no bounds) followed (NOOPs skipped) by a
single bitmap-family draw at the end of the stream, both paint indices are
non-zero, the save-layer paint is simple, and the draw paint's color equals
the layer paint's color with alpha forced opaque (equal RGB, opaque draw),
then the paint equal to the draw paint with its alpha replaced by the layer
paint's alpha is interned (the dictionary returning its existing index when
the value is already present), the draw's paint slot is overwritten with that
index, the SAVE_LAYER header becomes NOOP, the frame is popped, and no
RESTORE is emitted (the stream length is unchanged). -/
theorem C2_alpha_fold (s : RecState) (top neg : Int) (rest : List Int)
    (i0 i1 : CommandInfo) (slP dbP : SkPaint) (szSL : Nat)
    (hS : s.stack = top :: rest)
    (hOpt : s.disableOpts = false)
    (hW : backWalk s.writer (stdFuel s.writer) top = some neg)
    (hP : peek_op_and_size s.writer (-neg).toNat = (SAVE_LAYER, szSL))
    (hM : matchPat s.writer (stdFuel s.writer) (-neg).toNat
      [.exact SAVE_LAYER, .dbmFlavor] = some (some [i0, i1]))
    (hSz : i0.size ≠ kSaveLayerWithBoundsSize)
    (hSL : read32At s.writer (i0.offset + getPaintOffset SAVE_LAYER i0.size) ≠ 0)
    (hDB : read32At s.writer (i1.offset + getPaintOffset i1.actualOp i1.size) ≠ 0)
    (hUf1 : unflatten s.paints
      (read32At s.writer (i0.offset + getPaintOffset SAVE_LAYER i0.size)) = some slP)
    (hSimple : is_simple slP = true)
    (hUf2 : unflatten s.paints
      (read32At s.writer (i1.offset + getPaintOffset i1.actualOp i1.size)) = some dbP)
    (hCol : dbP.color = forceOpaqueColor slP.color) :
    ∃ s', SkPictureRecord.restore s = some s' ∧
      s'.writer = write32At (convert_command_to_noop s.writer i0.offset)
        (i1.offset + getPaintOffset i1.actualOp i1.size)
        (findAndReturnFlat s.paints
          { dbP with color := SkColorSetA dbP.color (SkColorGetA slP.color) }).1 ∧
      s'.paints = (findAndReturnFlat s.paints
        { dbP with color := SkColorSetA dbP.color (SkColorGetA slP.color) }).2 ∧
      s'.stack = rest ∧
      bytesWritten s'.writer = bytesWritten s.writer := by
  have hie : s.stack.isEmpty = false := by rw [hS]; rfl
  have htop : s.stack.headD 0 = top := by rw [hS]; rfl
  have htail : s.stack.tail = rest := by rw [hS]; rfl
  have hmerge : merge_savelayer_paint_into_drawbitmp s.writer s.paints i0 i1 =
      (true,
       write32At (convert_command_to_noop s.writer i0.offset)
         (i1.offset + getPaintOffset i1.actualOp i1.size)
         (findAndReturnFlat s.paints
           { dbP with color := SkColorSetA dbP.color (SkColorGetA slP.color) }).1,
       (findAndReturnFlat s.paints
         { dbP with color := SkColorSetA dbP.color (SkColorGetA slP.color) }).2) := by
    simp only [merge_savelayer_paint_into_drawbitmp, hSL, hDB, if_false, hUf1,
      hUf2, hSimple, Bool.not_true, Bool.false_eq_true, hCol, ne_eq,
      not_true_eq_false, ite_false, ite_true]
  have hrsl1 : remove_save_layer1 s.writer top s.paints =
      some (merge_savelayer_paint_into_drawbitmp s.writer s.paints i0 i1) := by
    simp only [remove_save_layer1, hW, hM, hSz, ite_false, if_false]
  have hcolFalse : collapse_save_clip_restore s.writer top =
      some (false, s.writer) := by
    simp only [collapse_save_clip_restore, hW, hP]
    norm_num
  have htry : tryOptimizations s.writer s.paints s.hasBBH (s.stack.headD 0) =
      some (some
        (write32At (convert_command_to_noop s.writer i0.offset)
          (i1.offset + getPaintOffset i1.actualOp i1.size)
          (findAndReturnFlat s.paints
            { dbP with color := SkColorSetA dbP.color (SkColorGetA slP.color) }).1,
         (findAndReturnFlat s.paints
           { dbP with color := SkColorSetA dbP.color (SkColorGetA slP.color) }).2)) := by
    rw [htop]
    cases hBB : s.hasBBH with
    | true =>
      simp only [tryOptimizations, if_true, hrsl1, hmerge]
    | false =>
      simp only [tryOptimizations, Bool.false_eq_true, if_false, hcolFalse,
        hrsl1, hmerge]
  have hrun : SkPictureRecord.restore s =
      some { s with
        writer := write32At (convert_command_to_noop s.writer i0.offset)
          (i1.offset + getPaintOffset i1.actualOp i1.size)
          (findAndReturnFlat s.paints
            { dbP with color := SkColorSetA dbP.color (SkColorGetA slP.color) }).1,
        paints := (findAndReturnFlat s.paints
          { dbP with color := SkColorSetA dbP.color (SkColorGetA slP.color) }).2,
        stack := s.stack.tail,
        firstSavedLayerIndex :=
          if (s.stack.length : Int) = s.firstSavedLayerIndex then -1
          else s.firstSavedLayerIndex } := by
    simp only [SkPictureRecord.restore, hie, hOpt, htry, Bool.false_eq_true,
      if_false]
  refine ⟨_, hrun, rfl, rfl, htail, ?_⟩
  show bytesWritten (write32At (convert_command_to_noop s.writer i0.offset) _ _)
      = bytesWritten s.writer
  rw [bytesWritten_write32At]
  show bytesWritten (write32At s.writer i0.offset _) = bytesWritten s.writer
  rw [bytesWritten_write32At]

/-! ## Claim C3: Rule B, null-paint cases -/

/-- C3: in the SAVE_LAYER(no bounds)/bitmap-draw/end-of-stream pattern, if the
save-layer's paint index is 0 the SAVE_LAYER header is converted to NOOP, the
draw is left unmodified and no RESTORE is emitted; otherwise if the draw's
paint index is 0 the save-layer's paint index is written into the draw's
paint slot, the SAVE_LAYER becomes NOOP and no RESTORE is emitted.  In both
cases the frame is popped and the paint dictionary is unchanged. -/
theorem C3_null_paint_cases (s : RecState) (top neg : Int) (rest : List Int)
    (i0 i1 : CommandInfo) (szSL : Nat)
    (hS : s.stack = top :: rest)
    (hOpt : s.disableOpts = false)
    (hW : backWalk s.writer (stdFuel s.writer) top = some neg)
    (hP : peek_op_and_size s.writer (-neg).toNat = (SAVE_LAYER, szSL))
    (hM : matchPat s.writer (stdFuel s.writer) (-neg).toNat
      [.exact SAVE_LAYER, .dbmFlavor] = some (some [i0, i1]))
    (hSz : i0.size ≠ kSaveLayerWithBoundsSize) :
    (read32At s.writer (i0.offset + getPaintOffset SAVE_LAYER i0.size) = 0 →
      ∃ s', SkPictureRecord.restore s = some s' ∧
        s'.writer = convert_command_to_noop s.writer i0.offset ∧
        s'.paints = s.paints ∧ s'.stack = rest ∧
        bytesWritten s'.writer = bytesWritten s.writer) ∧
    (read32At s.writer (i0.offset + getPaintOffset SAVE_LAYER i0.size) ≠ 0 →
      read32At s.writer (i1.offset + getPaintOffset i1.actualOp i1.size) = 0 →
      ∃ s', SkPictureRecord.restore s = some s' ∧
        s'.writer = write32At (convert_command_to_noop s.writer i0.offset)
          (i1.offset + getPaintOffset i1.actualOp i1.size)
          (read32At s.writer (i0.offset + getPaintOffset SAVE_LAYER i0.size)) ∧
        s'.paints = s.paints ∧ s'.stack = rest ∧
        bytesWritten s'.writer = bytesWritten s.writer) := by
  have hie : s.stack.isEmpty = false := by rw [hS]; rfl
  have htop : s.stack.headD 0 = top := by rw [hS]; rfl
  have htail : s.stack.tail = rest := by rw [hS]; rfl
  have hcolFalse : collapse_save_clip_restore s.writer top =
      some (false, s.writer) := by
    simp only [collapse_save_clip_restore, hW, hP]
    norm_num
  have hrsl1 : remove_save_layer1 s.writer top s.paints =
      some (merge_savelayer_paint_into_drawbitmp s.writer s.paints i0 i1) := by
    simp only [remove_save_layer1, hW, hM, hSz, ite_false, if_false]
  have hframe : ∀ w1 : SkWriter32,
      merge_savelayer_paint_into_drawbitmp s.writer s.paints i0 i1 =
        (true, w1, s.paints) →
      SkPictureRecord.restore s =
        some { s with
          writer := w1,
          paints := s.paints,
          stack := s.stack.tail,
          firstSavedLayerIndex :=
            if (s.stack.length : Int) = s.firstSavedLayerIndex then -1
            else s.firstSavedLayerIndex } := by
    intro w1 hmerge
    have htry : tryOptimizations s.writer s.paints s.hasBBH (s.stack.headD 0) =
        some (some (w1, s.paints)) := by
      rw [htop]
      cases hBB : s.hasBBH with
      | true => simp only [tryOptimizations, if_true, hrsl1, hmerge]
      | false =>
        simp only [tryOptimizations, Bool.false_eq_true, if_false, hcolFalse,
          hrsl1, hmerge]
    simp only [SkPictureRecord.restore, hie, hOpt, htry, Bool.false_eq_true,
      if_false]
  constructor
  · intro h0
    have hmerge : merge_savelayer_paint_into_drawbitmp s.writer s.paints i0 i1 =
        (true, convert_command_to_noop s.writer i0.offset, s.paints) := by
      simp only [merge_savelayer_paint_into_drawbitmp, h0, ite_true, if_true]
    refine ⟨_, hframe _ hmerge, rfl, rfl, htail, ?_⟩
    show bytesWritten (write32At s.writer i0.offset _) = bytesWritten s.writer
    rw [bytesWritten_write32At]
  · intro hne h0
    have hmerge : merge_savelayer_paint_into_drawbitmp s.writer s.paints i0 i1 =
        (true,
         write32At (convert_command_to_noop s.writer i0.offset)
           (i1.offset + getPaintOffset i1.actualOp i1.size)
           (read32At s.writer (i0.offset + getPaintOffset SAVE_LAYER i0.size)),
         s.paints) := by
      simp only [merge_savelayer_paint_into_drawbitmp, hne, h0, ite_true,
        if_true, ite_false, if_false]
    refine ⟨_, hframe _ hmerge, rfl, rfl, htail, ?_⟩
    show bytesWritten (write32At (convert_command_to_noop s.writer i0.offset) _ _)
        = bytesWritten s.writer
    rw [bytesWritten_write32At]
    show bytesWritten (write32At s.writer i0.offset _) = bytesWritten s.writer
    rw [bytesWritten_write32At]

/-! ## Claim C6: header codec round trip -/

/-- C6: emitting a header for `(op, declared_size)` at the writer tail and
peeking at the header's offset returns exactly `(op, declared_size)`, in both
the one-word encoding (size below 2²⁴−1) and the sentinel-plus-size-word
encoding. -/
theorem C6_header_roundtrip (w : SkWriter32) (op size : Nat) (_hop : op < 2 ^ 8) :
    peek_op_and_size (emitHeader w op size) (bytesWritten w) = (op, size) := by
  have e24 : (2 : Nat) ^ 24 = 16777216 := by norm_num
  by_cases h : size < MASK24
  · have hrd : read32At (appendWord w (op * 2 ^ 24 + size)) (bytesWritten w)
        = op * 2 ^ 24 + size := read32At_appendWord_at_end w _
    simp only [emitHeader, h, if_true, peek_op_and_size, hrd]
    have hs : size < 2 ^ 24 := by
      simp only [MASK24] at h; omega
    have h1 : (op * 2 ^ 24 + size) / 2 ^ 24 = op := by
      rw [e24] at hs ⊢; omega
    have h2 : (op * 2 ^ 24 + size) % 2 ^ 24 = size := by
      rw [e24] at hs ⊢; omega
    have hne : ¬(size = MASK24) := by omega
    rw [h1, h2]
    simp [hne]
  · have hb1 : bytesWritten w < bytesWritten (appendWord w (op * 2 ^ 24 + MASK24)) := by
      rw [bytesWritten_appendWord]; omega
    have hrd : read32At (appendWord (appendWord w (op * 2 ^ 24 + MASK24)) size)
        (bytesWritten w) = op * 2 ^ 24 + MASK24 := by
      rw [read32At_appendWord_lt _ _ _ hb1]
      exact read32At_appendWord_at_end w _
    have hrd2 : read32At (appendWord (appendWord w (op * 2 ^ 24 + MASK24)) size)
        (bytesWritten w + 4) = size := by
      have : bytesWritten w + 4 = bytesWritten (appendWord w (op * 2 ^ 24 + MASK24)) := by
        rw [bytesWritten_appendWord]
      rw [this]
      exact read32At_appendWord_at_end _ _
    simp only [emitHeader, h, if_false, peek_op_and_size, hrd]
    have hmlt : MASK24 < 2 ^ 24 := by rw [e24]; simp [MASK24]
    have h1 : (op * 2 ^ 24 + MASK24) / 2 ^ 24 = op := by
      rw [e24] at hmlt ⊢; omega
    have h2 : (op * 2 ^ 24 + MASK24) % 2 ^ 24 = MASK24 := by
      rw [e24] at hmlt ⊢; omega
    rw [h1, h2]
    simp only [if_true, kUInt32Size, hrd2]

/-! ## Claim C7: convert-to-NOOP frame property -/

/-- C7: converting the command at a header offset to NOOP rewrites only that
header word, replacing its opcode byte by NOOP and keeping its low 24 bits;
every other aligned word (in particular any overflow size word) is unchanged,
the stream length is unchanged, and peeking at the offset afterwards reports
opcode NOOP with the same size as before. -/
theorem C7_noop_preserves_frame (w : SkWriter32) (off : Nat)
    (h4 : off % 4 = 0) (hlt : off < bytesWritten w) :
    read32At (convert_command_to_noop w off) off =
      read32At w off % 2 ^ 24 + NOOP * 2 ^ 24 ∧
    (∀ j, j % 4 = 0 → j ≠ off →
      read32At (convert_command_to_noop w off) j = read32At w j) ∧
    bytesWritten (convert_command_to_noop w off) = bytesWritten w ∧
    peek_op_and_size (convert_command_to_noop w off) off =
      (NOOP, (peek_op_and_size w off).2) := by
  have e24 : (2 : Nat) ^ 24 = 16777216 := by norm_num
  have hself : read32At (convert_command_to_noop w off) off =
      read32At w off % 2 ^ 24 + NOOP * 2 ^ 24 :=
    read32At_write32At_eq w off _ hlt
  have hother : ∀ j, j % 4 = 0 → j ≠ off →
      read32At (convert_command_to_noop w off) j = read32At w j := by
    intro j hj hne
    exact read32At_write32At_ne w off j _ h4 hj (fun hh => hne hh.symm)
  refine ⟨hself, hother, bytesWritten_write32At w off _, ?_⟩
  have hmod : (read32At w off % 2 ^ 24 + NOOP * 2 ^ 24) % 2 ^ 24 =
      read32At w off % 2 ^ 24 := by
    rw [e24]
    omega
  have hdiv : (read32At w off % 2 ^ 24 + NOOP * 2 ^ 24) / 2 ^ 24 = NOOP := by
    rw [e24]
    omega
  simp only [peek_op_and_size, hself, hmod, hdiv]
  by_cases hm : read32At w off % 2 ^ 24 = MASK24
  · have h4' : (off + kUInt32Size) % 4 = 0 := by simp only [kUInt32Size]; omega
    have hne : off + kUInt32Size ≠ off := by simp only [kUInt32Size]; omega
    simp only [hm, if_true, hother (off + kUInt32Size) h4' hne]
  · simp only [hm, if_false]

/-! ## Claim C8: restore underflow -/

/-- C8 (amended): calling `restore()` with an empty restore-offset stack is
ignored in release *and* debug builds (the debug assertion in the source is
disabled by `#if 0`): the call returns without emitting any command and
without modifying the stream or the stack. -/
theorem C8_restore_underflow (s : RecState) (h : s.stack = []) :
    SkPictureRecord.restore s = some s ∧ restoreDebugBuild s = Except.ok s := by
  have hie : s.stack.isEmpty = true := by rw [h]; rfl
  exact ⟨by simp [SkPictureRecord.restore, hie],
         by simp [restoreDebugBuild, hie]⟩

/-! ## Claim C9: dictionary idempotence and picture identity dedup -/

theorem findIndex1_eq_none_iff (d : List SkPaint) (p : SkPaint) :
    findIndex1 d p = none ↔ p ∉ d := by
  induction d with
  | nil => simp [findIndex1]
  | cons q rest ih =>
    by_cases hq : q = p
    · simp [findIndex1, hq]
    · simp only [findIndex1, hq, if_false]
      constructor
      · intro hm hmem
        have hnone : findIndex1 rest p = none := by
          cases hr : findIndex1 rest p with
          | none => rfl
          | some i => rw [hr] at hm; simp at hm
        rcases List.mem_cons.mp hmem with he | hmem2
        · exact hq he.symm
        · exact (ih.mp hnone) hmem2
      · intro hmem
        have hnr : p ∉ rest := fun hr => hmem (List.mem_cons_of_mem _ hr)
        rw [ih.mpr hnr]
        rfl

theorem findIndex1_append_self (d : List SkPaint) (p : SkPaint)
    (h : findIndex1 d p = none) :
    findIndex1 (d ++ [p]) p = some (d.length + 1) := by
  induction d with
  | nil => simp [findIndex1]
  | cons q rest ih =>
    by_cases hq : q = p
    · simp [findIndex1, hq] at h
    · have hnone : findIndex1 rest p = none := by
        simp only [findIndex1, hq, if_false] at h
        cases hr : findIndex1 rest p with
        | none => rfl
        | some i => rw [hr] at h; simp at h
      have hstep : (q :: rest) ++ [p] = q :: (rest ++ [p]) := rfl
      rw [hstep]
      simp only [findIndex1, hq, if_false, ih hnone]
      simp

theorem findIndex0_eq_none_iff (d : List Nat) (p : Nat) :
    findIndex0 d p = none ↔ p ∉ d := by
  induction d with
  | nil => simp [findIndex0]
  | cons q rest ih =>
    by_cases hq : q = p
    · simp [findIndex0, hq]
    · simp only [findIndex0, hq, if_false]
      constructor
      · intro hm hmem
        have hnone : findIndex0 rest p = none := by
          cases hr : findIndex0 rest p with
          | none => rfl
          | some i => rw [hr] at hm; simp at hm
        rcases List.mem_cons.mp hmem with he | hmem2
        · exact hq he.symm
        · exact (ih.mp hnone) hmem2
      · intro hmem
        have hnr : p ∉ rest := fun hr => hmem (List.mem_cons_of_mem _ hr)
        rw [ih.mpr hnr]
        rfl

theorem findIndex0_append_self (d : List Nat) (p : Nat)
    (h : findIndex0 d p = none) :
    findIndex0 (d ++ [p]) p = some d.length := by
  induction d with
  | nil => simp [findIndex0]
  | cons q rest ih =>
    by_cases hq : q = p
    · simp [findIndex0, hq] at h
    · have hnone : findIndex0 rest p = none := by
        simp only [findIndex0, hq, if_false] at h
        cases hr : findIndex0 rest p with
        | none => rfl
        | some i => rw [hr] at h; simp at h
      have hstep : (q :: rest) ++ [p] = q :: (rest ++ [p]) := rfl
      rw [hstep]
      simp only [findIndex0, hq, if_false, ih hnone]
      simp

/-- C9: interning the same paint twice returns the same index and leaves the
dictionary unchanged on the second call; the dictionary grows only on
genuinely new values.  Recording the same picture pointer twice behaves the
same way, `ref()` fires only on first occurrence, and the first picture ever
recorded gets index 1 both times. -/
theorem C9_dictionary_idempotence :
    (∀ (d : List SkPaint) (p : SkPaint),
      (findAndReturnFlat (findAndReturnFlat d p).2 p).1 = (findAndReturnFlat d p).1 ∧
      (findAndReturnFlat (findAndReturnFlat d p).2 p).2 = (findAndReturnFlat d p).2 ∧
      (p ∈ d → (findAndReturnFlat d p).2 = d) ∧
      (p ∉ d → ((findAndReturnFlat d p).2).length = d.length + 1)) ∧
    (∀ (refs events : List Nat) (pic : Nat),
      (addPictureIdx (addPictureIdx refs events pic).2.1
          (addPictureIdx refs events pic).2.2 pic).1
        = (addPictureIdx refs events pic).1 ∧
      (addPictureIdx (addPictureIdx refs events pic).2.1
          (addPictureIdx refs events pic).2.2 pic).2
        = (addPictureIdx refs events pic).2 ∧
      (pic ∉ refs → (addPictureIdx refs events pic).2.2 = events ++ [pic]) ∧
      (pic ∈ refs → (addPictureIdx refs events pic).2.2 = events)) ∧
    (∀ (events : List Nat) (pic : Nat),
      (addPictureIdx [] events pic).1 = 1 ∧
      (addPictureIdx (addPictureIdx [] events pic).2.1
        (addPictureIdx [] events pic).2.2 pic).1 = 1 ∧
      (addPictureIdx (addPictureIdx [] events pic).2.1
        (addPictureIdx [] events pic).2.2 pic).2.2 = events ++ [pic]) := by
  have hpaint : ∀ (d : List SkPaint) (p : SkPaint),
      (findAndReturnFlat (findAndReturnFlat d p).2 p).1 = (findAndReturnFlat d p).1 ∧
      (findAndReturnFlat (findAndReturnFlat d p).2 p).2 = (findAndReturnFlat d p).2 ∧
      (p ∈ d → (findAndReturnFlat d p).2 = d) ∧
      (p ∉ d → ((findAndReturnFlat d p).2).length = d.length + 1) := by
    intro d p
    cases hf : findIndex1 d p with
    | some i =>
      have hpm : p ∈ d := by
        by_contra hnot
        rw [(findIndex1_eq_none_iff d p).mpr hnot] at hf
        exact Option.noConfusion hf
      have hmem : findAndReturnFlat d p = (i, d) := by
        simp [findAndReturnFlat, hf]
      exact ⟨by simp [hmem], by simp [hmem], fun _ => by simp [hmem],
             fun hnot => absurd hpm hnot⟩
    | none =>
      have hnew : (findAndReturnFlat d p) = (d.length + 1, d ++ [p]) := by
        simp [findAndReturnFlat, hf]
      have hsecond : findIndex1 (d ++ [p]) p = some (d.length + 1) :=
        findIndex1_append_self d p hf
      rw [hnew]
      refine ⟨?_, ?_, ?_, ?_⟩
      · simp [findAndReturnFlat, hsecond]
      · simp [findAndReturnFlat, hsecond]
      · intro hmem
        exact absurd hmem ((findIndex1_eq_none_iff d p).mp hf)
      · intro _
        simp
  have hpic : ∀ (refs events : List Nat) (pic : Nat),
      (addPictureIdx (addPictureIdx refs events pic).2.1
          (addPictureIdx refs events pic).2.2 pic).1
        = (addPictureIdx refs events pic).1 ∧
      (addPictureIdx (addPictureIdx refs events pic).2.1
          (addPictureIdx refs events pic).2.2 pic).2
        = (addPictureIdx refs events pic).2 ∧
      (pic ∉ refs → (addPictureIdx refs events pic).2.2 = events ++ [pic]) ∧
      (pic ∈ refs → (addPictureIdx refs events pic).2.2 = events) := by
    intro refs events pic
    cases hf : findIndex0 refs pic with
    | some i =>
      have hpm : pic ∈ refs := by
        by_contra hnot
        rw [(findIndex0_eq_none_iff refs pic).mpr hnot] at hf
        exact Option.noConfusion hf
      have hmem : addPictureIdx refs events pic = (i + 1, refs, events) := by
        simp [addPictureIdx, hf]
      exact ⟨by simp [hmem], by simp [hmem],
             fun hnot => absurd hpm hnot, fun _ => by simp [hmem]⟩
    | none =>
      have hnew : addPictureIdx refs events pic =
          (refs.length + 1, refs ++ [pic], events ++ [pic]) := by
        simp [addPictureIdx, hf]
      have hsecond : findIndex0 (refs ++ [pic]) pic = some refs.length :=
        findIndex0_append_self refs pic hf
      rw [hnew]
      refine ⟨?_, ?_, fun _ => rfl, ?_⟩
      · simp [addPictureIdx, hsecond]
      · simp [addPictureIdx, hsecond]
      · intro hmem
        exact absurd hmem ((findIndex0_eq_none_iff refs pic).mp hf)
  refine ⟨hpaint, hpic, ?_⟩
  intro events pic
  have h1 : addPictureIdx [] events pic = (1, [pic], events ++ [pic]) := by
    simp [addPictureIdx, findIndex0]
  rw [h1]
  have h2 : addPictureIdx [pic] (events ++ [pic]) pic = (1, [pic], events ++ [pic]) := by
    simp [addPictureIdx, findIndex0]
  rw [h2]
  exact ⟨rfl, rfl, rfl⟩

/-! ## Claim C10: restore pops exactly one frame -/

/-- C10: every `restore()` call made with a non-empty restore-offset stack
pops exactly one frame — whether a peephole optimization fired or a RESTORE
command was recorded. -/
theorem C10_restore_pops_one (s s' : RecState) (hne : s.stack ≠ [])
    (h : SkPictureRecord.restore s = some s') :
    s'.stack = s.stack.tail ∧ s'.stack.length + 1 = s.stack.length := by
  have hie : s.stack.isEmpty = false := by
    cases hs : s.stack with
    | nil => exact absurd hs hne
    | cons a t => rfl
  simp only [SkPictureRecord.restore, hie, Bool.false_eq_true, if_false] at h
  have htl : s'.stack = s.stack.tail := by
    split at h
    · exact absurd h (by simp)
    · injection h with h'
      rw [← h']
    · split at h
      · exact absurd h (by simp)
      · injection h with h'
        rw [← h']
  refine ⟨htl, ?_⟩
  rw [htl]
  cases hs : s.stack with
  | nil => exact absurd hs hne
  | cons a t => simp

/-! ## Counterexamples and witnesses -/

/-- C1 (counterexample to the claim as stated).  First part: the claim's own
example `save(MatrixClip); translate(1,2); restore()` does not yield "a stream
containing only a TRANSLATE command" — Rule A rewinds the writer to the SAVE
header's offset (here 0), so the stream comes out empty.  Second part: in
`save(MatrixClip); save(Matrix); restore(); restore()` the outer scope is
opened by a MatrixClip save and no opcode of the claim's draw-verb set
(`DRAW_*`, `SAVE_LAYER`) occurs in its body, yet the outer `restore()` does
not rewind: the source's range test also aborts on the RESTORE (opcode 28)
emitted by the inner scope, and a RESTORE is emitted. -/
theorem C1_counterexample :
    ((SkPictureRecord.restore sC1a).map (fun s => s.writer.words) = some [] ∧
      some ([] : List Nat) ≠ some [TRANSLATE * 2 ^ 24 + 12, 1, 2]) ∧
    (sC1b.stack = [0] ∧
      peek_op_and_size sC1b.writer 0 = (SAVE, 8) ∧
      read32At sC1b.writer 4 = kMatrixClipSaveFlag ∧
      scanForSpecDrawVerb sC1b.writer (stdFuel sC1b.writer) 8
        (bytesWritten sC1b.writer) = some false ∧
      (SkPictureRecord.restore sC1b).map (fun s => s.writer.words) =
        some [SAVE * 2 ^ 24 + 8, 3, SAVE * 2 ^ 24 + 8, 1,
              RESTORE * 2 ^ 24 + 4, RESTORE * 2 ^ 24 + 4] ∧
      (SkPictureRecord.restore sC1b).map (fun s => s.writer.words) ≠
        some []) := by
  decide

/-- C1 witness: the amended rule applied to the concrete recording
`save(MatrixClip); translate(1,2)`. -/
theorem C1_collapse_empty_save_witness :
    ∃ s', SkPictureRecord.restore sC1a = some s' ∧
      s'.writer = rewindToOffset sC1a.writer 0 ∧
      s'.stack = [] ∧ s'.paints = sC1a.paints :=
  C1_collapse_empty_save sC1a 0 0 [] 8 (by decide) rfl rfl (by decide)
    (by decide) (by decide) (by decide)

/-- C2 (counterexample to the claim as stated).  The claim's example folds
layer `#80FFFFFF` into draw `#FFFF0000`, but their RGB parts differ (FFFFFF
vs FF0000), so the rule's own RGB-equality requirement fails: the code leaves
the SAVE_LAYER in place, interns no new paint, and emits a RESTORE — instead
of the predicted NOOP'd SAVE_LAYER, interned `#80FF0000` paint and suppressed
RESTORE. -/
theorem C2_counterexample :
    unflatten sC2claim.paints 1 = some pLayerWhite ∧
    unflatten sC2claim.paints 2 = some pDrawRed ∧
    (SkPictureRecord.restore sC2claim).map
        (fun s => (s.writer.words, s.paints.map SkPaint.color)) =
      some ([SAVE_LAYER * 2 ^ 24 + 16, 0, 1, 3, DRAW_BITMAP * 2 ^ 24 + 20, 2,
             0, 0, 0, RESTORE * 2 ^ 24 + 4],
            [0x80FFFFFF, 0xFFFF0000]) ∧
    (SkPictureRecord.restore sC2claim).map
        (fun s => (s.writer.words, s.paints.map SkPaint.color)) ≠
      some ([NOOP * 2 ^ 24 + 16, 0, 1, 3, DRAW_BITMAP * 2 ^ 24 + 20, 3,
             0, 0, 0],
            [0x80FFFFFF, 0xFFFF0000, 0x80FF0000]) := by
  decide

/-- C2 witness: the amended rule applied to the RGB-matching recording
`saveLayer(None, #80FF0000); drawBitmap(B, 0, 0, #FFFF0000-with-shader)`; the
merged paint `#80FF0000`-with-shader is new, so a fresh index (3) is interned
and written into the draw's paint slot. -/
theorem C2_alpha_fold_witness :
    ∃ s', SkPictureRecord.restore sC2w = some s' ∧
      s'.writer = write32At (convert_command_to_noop sC2w.writer 0)
        (16 + getPaintOffset DRAW_BITMAP 20)
        (findAndReturnFlat sC2w.paints
          { pDrawRedShader with
            color := SkColorSetA pDrawRedShader.color (SkColorGetA pLayer.color) }).1 ∧
      s'.paints = (findAndReturnFlat sC2w.paints
        { pDrawRedShader with
          color := SkColorSetA pDrawRedShader.color (SkColorGetA pLayer.color) }).2 ∧
      s'.stack = [] ∧
      bytesWritten s'.writer = bytesWritten sC2w.writer :=
  C2_alpha_fold sC2w 0 0 [] ⟨SAVE_LAYER, 0, 16⟩ ⟨DRAW_BITMAP, 16, 20⟩
    pLayer pDrawRedShader 16 (by decide) rfl (by decide) (by decide)
    (by decide) (by decide) (by decide) (by decide) (by decide) (by decide)
    (by decide) (by decide)

/-- C3 witness: scenario S3, `saveLayer(None, None); drawBitmap(B, 0, 0,
None); restore()` — the save-layer paint index is 0, so the SAVE_LAYER header
becomes NOOP, the draw is untouched (its paint index stays 0) and no RESTORE
is emitted. -/
theorem C3_null_paint_cases_witness :
    ∃ s', SkPictureRecord.restore sC3w = some s' ∧
      s'.writer = convert_command_to_noop sC3w.writer 0 ∧
      s'.paints = sC3w.paints ∧ s'.stack = [] ∧
      bytesWritten s'.writer = bytesWritten sC3w.writer :=
  (C3_null_paint_cases sC3w 0 0 [] ⟨SAVE_LAYER, 0, 16⟩ ⟨DRAW_BITMAP, 16, 20⟩ 16
    (by decide) rfl (by decide) (by decide) (by decide) (by decide)).1
    (by decide)

/-- C4 (counterexample to the claim's example).  On a default recorder the
example `save(); clipRect(R1, Intersect); clipRect(R2, Union); restore()` is
itself erased by Rule A (clips are not draw verbs), so the final stream is
empty and contains no CLIP_RECT whose placeholder could equal the RESTORE
offset, contrary to the claimed final-stream shape. -/
theorem C4_counterexample :
    (sC4run.bind SkPictureRecord.restore).map (fun s => s.writer.words) =
      some [] ∧
    (sC4run.bind SkPictureRecord.restore).map (fun s => s.writer.words) ≠
      some [SAVE * 2 ^ 24 + 8, 3,
            CLIP_RECT * 2 ^ 24 + 28, 1, 2, 3, 4, 1, 0,
            CLIP_RECT * 2 ^ 24 + 28, 5, 6, 7, 8, 2, 64,
            RESTORE * 2 ^ 24 + 4] := by
  decide

/-- C4 witness: recording the Union clip of scenario S5 on the state after
`save(); clipRect(R1, Intersect)` neutralizes the first clip's placeholder
(offset 32) and appends a zero placeholder. -/
theorem C4_expanding_clip_neutralizes_witness :
    ∃ s', recordClipRect sC4w rect2 RegionOp.union false = some s' ∧
      (∀ i ∈ [(32 : Int).toNat], read32At s'.writer i = 0) ∧
      read32At s'.writer (bytesWritten sC4w.writer + 24) = 0 ∧
      s'.stack = ((bytesWritten sC4w.writer + 24 : Nat) : Int) :: [] ∧
      bytesWritten s'.writer = bytesWritten sC4w.writer + 28 ∧
      (∀ j, j % 4 = 0 → j < bytesWritten sC4w.writer → j ∉ [(32 : Int).toNat] →
        read32At s'.writer j = read32At sC4w.writer j) := by
  have hch : Chain sC4w.writer 32 ((32 : Int).toNat :: []) :=
    Chain.cons 32 [] (by decide) (by decide) (by decide) (by decide)
      (Chain.nil _ (by decide))
  exact C4_expanding_clip_neutralizes sC4w rect2 RegionOp.union false 32 [] _
    (by decide) hch rfl

/-- C5 witness: scenario S5 with optimizations disabled, at the moment the
RESTORE is recorded: the chain holds the single live placeholder at offset 60
(the earlier one was neutralized by the Union clip), it is filled with the
RESTORE header's offset (64), and the RESTORE header is emitted there. -/
theorem C5_restore_backpatch_witness :
    ∃ s', SkPictureRecord.recordRestore sC5w = some s' ∧
      (∀ i ∈ [(60 : Int).toNat], read32At s'.writer i = bytesWritten sC5w.writer) ∧
      peek_op_and_size s'.writer (bytesWritten sC5w.writer) = (RESTORE, 4) ∧
      bytesWritten s'.writer = bytesWritten sC5w.writer + 4 ∧
      (∀ j, j % 4 = 0 → j < bytesWritten sC5w.writer → j ∉ [(60 : Int).toNat] →
        read32At s'.writer j = read32At sC5w.writer j) ∧
      s'.stack = sC5w.stack := by
  have hch : Chain sC5w.writer 60 ((60 : Int).toNat :: []) :=
    Chain.cons 60 [] (by decide) (by decide) (by decide) (by decide)
      (Chain.nil _ (by decide))
  exact C5_restore_backpatch sC5w 60 [] _ (by decide) hch

/-- C6 witness: a short header (DRAW_RECT, 24 bytes) and an overflowing one
(DRAW_DATA, 2²⁴+40 bytes) both round-trip through emit and peek. -/
theorem C6_header_roundtrip_witness :
    peek_op_and_size (emitHeader ⟨[]⟩ DRAW_RECT 24) 0 = (DRAW_RECT, 24) ∧
    peek_op_and_size (emitHeader ⟨[]⟩ DRAW_DATA (2 ^ 24 + 40)) 0 =
      (DRAW_DATA, 2 ^ 24 + 40) :=
  ⟨C6_header_roundtrip ⟨[]⟩ DRAW_RECT 24 (by decide),
   C6_header_roundtrip ⟨[]⟩ DRAW_DATA (2 ^ 24 + 40) (by decide)⟩

/-- C7 witness: converting an overflow-sized DRAW_DATA command to NOOP keeps
the low 24 header bits and the size word, and peek reports (NOOP, old size). -/
theorem C7_noop_preserves_frame_witness :
    read32At (convert_command_to_noop (emitHeader ⟨[]⟩ DRAW_DATA (2 ^ 24 + 40)) 0) 0 =
      read32At (emitHeader ⟨[]⟩ DRAW_DATA (2 ^ 24 + 40)) 0 % 2 ^ 24 + NOOP * 2 ^ 24 ∧
    peek_op_and_size (convert_command_to_noop (emitHeader ⟨[]⟩ DRAW_DATA (2 ^ 24 + 40)) 0) 0 =
      (NOOP, (peek_op_and_size (emitHeader ⟨[]⟩ DRAW_DATA (2 ^ 24 + 40)) 0).2) := by
  have h := C7_noop_preserves_frame (emitHeader ⟨[]⟩ DRAW_DATA (2 ^ 24 + 40)) 0
    (by decide) (by decide)
  exact ⟨h.1, h.2.2.2⟩

/-- C8 (counterexample to the claim as stated): in debug-build semantics an
underflowing `restore()` raises no assertion — the only candidate assertion in
the source is excluded from compilation by `#if 0` — so the call is ignored in
debug builds too, contradicting "fatal (debug assert) in debug builds". -/
theorem C8_counterexample :
    restoreDebugBuild (initState false false) =
      Except.ok (initState false false) ∧
    (initState false false).stack = [] := by
  exact ⟨rfl, rfl⟩

/-- C8 witness: the amended behaviour on a concrete empty-stack recorder. -/
theorem C8_restore_underflow_witness :
    SkPictureRecord.restore (initState true true) = some (initState true true) ∧
    restoreDebugBuild (initState true true) = Except.ok (initState true true) :=
  C8_restore_underflow (initState true true) rfl

/-- C9 witness: interning the same paint twice in an empty dictionary, and
recording picture 42 twice: indices 1 and 1, one ref event. -/
theorem C9_dictionary_idempotence_witness :
    (findAndReturnFlat (findAndReturnFlat [] pLayer).2 pLayer).1 =
      (findAndReturnFlat [] pLayer).1 ∧
    ((findAndReturnFlat [] pLayer).2).length = 1 ∧
    (addPictureIdx [] [] 42).1 = 1 ∧
    (addPictureIdx (addPictureIdx [] [] 42).2.1
      (addPictureIdx [] [] 42).2.2 42).1 = 1 ∧
    (addPictureIdx (addPictureIdx [] [] 42).2.1
      (addPictureIdx [] [] 42).2.2 42).2.2 = [42] := by
  have h := C9_dictionary_idempotence
  refine ⟨(h.1 [] pLayer).1, ?_, (h.2.2 [] 42).1, (h.2.2 [] 42).2.1, ?_⟩
  · have h2 := (h.1 [] pLayer).2.2.2 (by simp)
    simpa using h2
  · have h3 := (h.2.2 [] 42).2.2
    simpa using h3

/-- C10 witness: `save(MatrixClip); restore()` — the collapse optimization
fires, no RESTORE is emitted, and exactly one frame is popped. -/
theorem C10_restore_pops_one_witness :
    sC10res.stack = sC10.stack.tail ∧
    sC10res.stack.length + 1 = sC10.stack.length :=
  C10_restore_pops_one sC10 sC10res (by decide) (by decide)
